import Mathlib

/-!
Shallow embedding of the instantide bootstrap orchestrator core
(`src/utils/compatibilityChecker.ts`, `src/utils/webcontainer.ts`)
and proofs about its specified behaviour.

JavaScript strings are modelled as Lean `String`; `String.prototype.startsWith`,
`includes`, `toLowerCase` and `trim` are re-implemented on the character list so
that everything reduces by `decide`/`rfl`.  JSON objects are modelled as
association lists (a parsed JSON object has pairwise distinct keys; `lookup`
returns the declared value).  `JSON.parse` for manifests is an opaque external
routine; the embedding abstracts it as a `String → Option Pkg` parameter: the
source wraps it in `try/catch` and maps a parse failure to `null`, which the
parameter maps to `none`.
-/

namespace InstantIDE

/-! String primitives (JS semantics, ASCII-level) -/

/-- JS `a.startsWith(b)`. -/
def strStartsWith (s pre : String) : Bool :=
  pre.data.isPrefixOf s.data

/-- One-position-at-a-time substring search on character lists. -/
def containsSub (pat : List Char) : List Char → Bool
  | [] => pat.isEmpty
  | c :: r => pat.isPrefixOf (c :: r) || containsSub pat r

/-- JS `a.includes(b)`. -/
def strIncludes (s pat : String) : Bool :=
  containsSub pat.data s.data

/-- JS `a.toLowerCase()` (ASCII range, which covers every pattern used). -/
def strToLower (s : String) : String :=
  ⟨s.data.map Char.toLower⟩

/-- Case-insensitive plain-substring test: the `/i` regexes whose body is a
literal (no metacharacters) reduce to this. -/
def strIncludesCI (s pat : String) : Bool :=
  strIncludes (strToLower s) (strToLower pat)

/-- JS `a.trim()` (whitespace at both ends removed). -/
def strTrim (s : String) : String :=
  ⟨((s.data.dropWhile Char.isWhitespace).reverse.dropWhile Char.isWhitespace).reverse⟩

/-! Manifest and file-tree data model -/

/-- The fields of a parsed `package.json` that the checked code reads.
`enginesNode` models `pkg.engines?.node` (`none` when `engines` or its `node`
field is missing). -/
structure Pkg where
  dependencies : Option (List (String × String)) := none
  devDependencies : Option (List (String × String)) := none
  optionalDependencies : Option (List (String × String)) := none
  scripts : Option (List (String × String)) := none
  enginesNode : Option String := none
deriving DecidableEq, Repr

/-- A `FileSystemTree` node: `FileNode` carries its decoded text contents. -/
inductive FsNode where
  | file (contents : String)
  | directory (entries : List (String × FsNode))

/-- `FileSystemTree` is a record from names to nodes. -/
abbrev FileSystemTree := List (String × FsNode)

/-- The `ProjectType` union from `projectDetection.ts`. -/
inductive ProjectType where
  | nodejs | static | python | rust | go | java | php | ruby | dotnet | other
deriving DecidableEq, Repr

/-- String interpolation of a `ProjectType` (template literal in the source). -/
def ProjectType.asString : ProjectType → String
  | .nodejs => "nodejs"
  | .static => "static"
  | .python => "python"
  | .rust => "rust"
  | .go => "go"
  | .java => "java"
  | .php => "php"
  | .ruby => "ruby"
  | .dotnet => "dotnet"
  | .other => "other"

/-- The `CompatibilityReport` interface. `env`-less fields keep source names. -/
structure CompatibilityReport where
  canRun : Bool
  issues : List String
  warnings : List String
  suggestions : List String
  nodeVersion : Option String := none
  hasNativeDeps : Bool
  hasGitSshDeps : Bool
  frameworkDetected : Option String := none
deriving DecidableEq, Repr

/-- `NATIVE_PACKAGES` (a `Set` of names; membership only). -/
def NATIVE_PACKAGES : List String :=
  ["bcrypt", "sharp", "canvas", "sqlite3", "better-sqlite3", "node-sass",
   "node-gyp", "fsevents", "esbuild", "swc", "@swc/core", "lightningcss",
   "bufferutil", "utf-8-validate", "cpu-features", "sse4_crc32", "farmhash",
   "xxhash", "argon2", "libsodium", "sodium-native", "leveldown", "rocksdb"]

/-- `PEER_DEP_TROUBLEMAKERS`. -/
def PEER_DEP_TROUBLEMAKERS : List String :=
  ["react", "react-dom", "@types/react", "@types/react-dom", "webpack",
   "babel-core", "@babel/core", "eslint", "prettier", "typescript"]

/-- One `FRAMEWORK_PATTERNS` entry. -/
structure FrameworkPattern where
  name : String
  deps : List String
  devScript : Option String := none
deriving DecidableEq, Repr

/-- `FRAMEWORK_PATTERNS`, in source order (order matters: first match wins). -/
def FRAMEWORK_PATTERNS : List FrameworkPattern :=
  [⟨"Vite", ["vite"], some "vite"⟩,
   ⟨"Next.js", ["next"], some "next"⟩,
   ⟨"Create React App", ["react-scripts"], some "react-scripts"⟩,
   ⟨"Vue CLI", ["@vue/cli-service"], some "vue-cli-service"⟩,
   ⟨"Nuxt", ["nuxt", "nuxt3"], some "nuxt"⟩,
   ⟨"Angular CLI", ["@angular/cli"], some "ng"⟩,
   ⟨"SvelteKit", ["@sveltejs/kit"], some "svelte-kit"⟩,
   ⟨"Remix", ["@remix-run/dev"], some "remix"⟩,
   ⟨"Astro", ["astro"], some "astro"⟩,
   ⟨"Gatsby", ["gatsby"], some "gatsby"⟩,
   ⟨"Parcel", ["parcel"], some "parcel"⟩,
   ⟨"Webpack", ["webpack", "webpack-cli"], some "webpack"⟩,
   ⟨"Express", ["express"], none⟩,
   ⟨"Fastify", ["fastify"], none⟩,
   ⟨"Koa", ["koa"], none⟩,
   ⟨"NestJS", ["@nestjs/core"], some "nest"⟩]

/-- `extractPackageJson`: the `package.json` entry must exist and be a file
node; its contents go through `JSON.parse` (the `parse` parameter), and any
parse failure yields `null`. -/
def extractPackageJson (parse : String → Option Pkg) (tree : FileSystemTree) :
    Option Pkg :=
  match tree.lookup "package.json" with
  | some (FsNode.file contents) => parse contents
  | _ => none

/-- `extractNodeVersion`: a truthy `engines.node` wins, else a `.nvmrc` file
node (trimmed), else `undefined`. -/
def extractNodeVersion (tree : FileSystemTree) (pkg : Pkg) : Option String :=
  match pkg.enginesNode with
  | some s =>
      if s ≠ "" then some s
      else
        match tree.lookup ".nvmrc" with
        | some (FsNode.file contents) => some (strTrim contents)
        | _ => none
  | none =>
      match tree.lookup ".nvmrc" with
      | some (FsNode.file contents) => some (strTrim contents)
      | _ => none

/-- Digits-to-number (`parseInt` on a `\d+` capture group). -/
def natOfDigits (ds : List Char) : Nat :=
  ds.foldl (fun a c => a * 10 + (c.toNat - 48)) 0

/-- Consume the optional leading `v` of the `v?` regex atom. -/
def dropLeadingV : List Char → List Char
  | 'v' :: r => r
  | cs => cs

/-- Consume one `\.\d+` group, returning the remainder. -/
def dotDigits : List Char → Option (List Char)
  | '.' :: r =>
      if (r.takeWhile Char.isDigit).isEmpty then none
      else some (r.dropWhile Char.isDigit)
  | _ => none

/-- Match `(?:\.\d+)?(?:\.\d+)?$` against the remainder. -/
def exactTailOk (cs : List Char) : Bool :=
  cs.isEmpty ||
    (match dotDigits cs with
     | some r1 =>
         r1.isEmpty ||
           (match dotDigits r1 with
            | some r2 => r2.isEmpty
            | none => false)
     | none => false)

/-- Full match of `/^v?(\d+)(?:\.\d+)?(?:\.\d+)?$/`, returning the captured
major number. -/
def exactVersionMatch (version : String) : Option Nat :=
  let cs := dropLeadingV version.data
  let ds := cs.takeWhile Char.isDigit
  if ds.isEmpty then none
  else if exactTailOk (cs.dropWhile Char.isDigit) then some (natOfDigits ds)
  else none

/-- Anchored match of `/^>=?\s*v?(\d+)/`, returning the captured major. -/
def geVersionMatch (version : String) : Option Nat :=
  match version.data with
  | '>' :: r =>
      let r1 := match r with
        | '=' :: r2 => r2
        | _ => r
      let r2 := dropLeadingV (r1.dropWhile Char.isWhitespace)
      let ds := r2.takeWhile Char.isDigit
      if ds.isEmpty then none else some (natOfDigits ds)
  | _ => none

/-- Anchored match of `/^<\s*v?(\d+)/`, returning the captured major. -/
def ltVersionMatch (version : String) : Option Nat :=
  match version.data with
  | '<' :: r =>
      let r2 := dropLeadingV (r.dropWhile Char.isWhitespace)
      let ds := r2.takeWhile Char.isDigit
      if ds.isEmpty then none else some (natOfDigits ds)
  | _ => none

/-- Result record of `parseNodeVersionRequirement`. -/
structure NodeVersionReq where
  minMajor : Option Nat := none
  maxMajor : Option Int := none
  exact : Option Nat := none
deriving DecidableEq, Repr

/-- `parseNodeVersionRequirement`: exact pattern first, then lower bound,
then upper bound (recorded as `N - 1`), else empty. -/
def parseNodeVersionRequirement (version : String) : NodeVersionReq :=
  match exactVersionMatch version with
  | some n => { exact := some n }
  | none =>
      match geVersionMatch version with
      | some n => { minMajor := some n }
      | none =>
          match ltVersionMatch version with
          | some n => { maxMajor := some ((n : Int) - 1) }
          | none => {}

/-- Result record of `analyzeDependencies`. -/
structure DepAnalysis where
  native : List String
  peerTrouble : List String
  gitSsh : List String
  allDeps : List String
deriving DecidableEq, Repr

/-- The version-spec test of the git+ssh scan (`startsWith`/`includes`). -/
def isGitSshVersion (version : String) : Bool :=
  strStartsWith version "git+ssh://" || strStartsWith version "ssh://" ||
    strIncludes version "git@"

/-- The three dependency sections in scan order (`dependencies`,
`devDependencies`, `optionalDependencies`); a missing section contributes
nothing. -/
def depSections (pkg : Pkg) : List (String × String) :=
  pkg.dependencies.getD [] ++ pkg.devDependencies.getD [] ++
    pkg.optionalDependencies.getD []

/-- `analyzeDependencies`: one pass over all section entries, classifying each
name; the four output lists preserve iteration order. -/
def analyzeDependencies (pkg : Pkg) : DepAnalysis :=
  let entries := depSections pkg
  { native := (entries.filter fun e => NATIVE_PACKAGES.contains e.1).map Prod.fst
    peerTrouble :=
      (entries.filter fun e => PEER_DEP_TROUBLEMAKERS.contains e.1).map Prod.fst
    gitSsh := (entries.filter fun e => isGitSshVersion e.2).map Prod.fst
    allDeps := entries.map Prod.fst }

/-- `detectFramework`: first `FRAMEWORK_PATTERNS` entry one of whose dep names
is declared. The `pkg` parameter is unused in the source as well. -/
def detectFramework (_pkg : Pkg) (allDeps : List String) : Option String :=
  (FRAMEWORK_PATTERNS.find? fun fw =>
      fw.deps.any fun dep => allDeps.contains dep).map FrameworkPattern.name

/-- The fixed sandbox runtime major version (`webContainerNodeVersion`). -/
def webContainerNodeVersion : Nat := 18

/-- Warning messages contributed by the Node-version block of
`checkCompatibility`.  The `≠ 0` side conditions mirror JS truthiness of
`minMajor && ...` / `exact && ...`; `maxMajor` is never consulted there. -/
def nodeVersionWarnings (nodeVersion : Option String) : List String :=
  match nodeVersion with
  | none => []
  | some v =>
      if v = "" then []
      else
        let req := parseNodeVersionRequirement v
        (match req.minMajor with
         | some m =>
             if m ≠ 0 ∧ webContainerNodeVersion < m then
               ["Project requires Node.js " ++ v ++ ", WebContainers run Node 18"]
             else []
         | none => []) ++
        (match req.exact with
         | some e =>
             if e ≠ 0 ∧ webContainerNodeVersion < e then
               ["Project targets Node.js " ++ toString e ++
                 ", WebContainers run Node 18"]
             else []
         | none => []) ++
        (match req.exact with
         | some e =>
             if e ≠ 0 ∧ e < 14 then
               ["Project targets old Node.js " ++ toString e ++
                 " - some APIs may differ"]
             else []
         | none => [])

/-- JS truthiness of `scripts[name]` (present and non-empty). -/
def scriptTruthy (scripts : List (String × String)) (name : String) : Bool :=
  match scripts.lookup name with
  | some v => v != ""
  | none => false

/-- Script names probed by the `hasDevScript` check of `checkCompatibility`. -/
def checkerDevScriptNames : List String := ["dev", "start", "serve", "develop"]

/-- Message texts of `checkCompatibility` (apostrophes written `\x27`). -/
def noPkgWarning : String := "No package.json found - may not be a Node.js project"

/-- The blocking git+ssh issue, naming every offending package. -/
def gitSshIssueMsg (names : List String) : String :=
  "Git+SSH dependencies not supported: " ++ String.intercalate ", " names

/-- Suggestion paired with the git+ssh issue. -/
def gitSshSuggestion : String :=
  "Replace git+ssh dependencies with npm packages or HTTPS URLs"

/-- Warning naming up to three native packages plus an elision mark. -/
def nativeWarningMsg (native : List String) : String :=
  "Native packages detected: " ++ String.intercalate ", " (native.take 3) ++
    (if 3 < native.length then "..." else "")

/-- Suggestion paired with the native-package warning. -/
def nativeSuggestion : String :=
  "Some packages may not work - they require native compilation"

/-- Suggestion emitted when at least three peer-conflict troublemakers occur. -/
def peerSuggestion : String := "May need --legacy-peer-deps if install fails"

/-- Warning when the manifest declares no scripts object. -/
def noScriptsWarning : String := "No scripts in package.json"

/-- Suggestion paired with `noScriptsWarning`. -/
def addScriptSuggestion1 : String :=
  "Add a \x27dev\x27 or \x27start\x27 script to run the project"

/-- Warning when no conventional dev script is declared. -/
def noDevScriptWarning : String := "No dev/start script found"

/-- Suggestion paired with `noDevScriptWarning`. -/
def addScriptSuggestion2 : String :=
  "Add a \x27dev\x27 or \x27start\x27 script to package.json"

/-- `checkCompatibility`: the source builds `report` by successive field
mutations; this definition gives each final field value directly, preserving
the append order of every list (version warnings, then native, then scripts;
native suggestion, then git+ssh, then peer, then scripts). -/
def checkCompatibility (parse : String → Option Pkg) (tree : FileSystemTree)
    (projectType : ProjectType) : CompatibilityReport :=
  if projectType ≠ ProjectType.nodejs then
    if projectType = ProjectType.static then
      { canRun := true, issues := [], warnings := [],
        suggestions := ["Static site will be served with Express"],
        hasNativeDeps := false, hasGitSshDeps := false }
    else
      { canRun := false,
        issues := [projectType.asString ++ " projects cannot run in WebContainers"],
        warnings := [],
        suggestions := ["Use cloud deployment for full execution"],
        hasNativeDeps := false, hasGitSshDeps := false }
  else
    match extractPackageJson parse tree with
    | none =>
        { canRun := true, issues := [], warnings := [noPkgWarning],
          suggestions := [], hasNativeDeps := false, hasGitSshDeps := false }
    | some pkg =>
        let nodeVersion := extractNodeVersion tree pkg
        let a := analyzeDependencies pkg
        let hasDevScript : Option Bool :=
          match pkg.scripts with
          | none => none
          | some scripts => some (checkerDevScriptNames.any (scriptTruthy scripts))
        { canRun := a.gitSsh.isEmpty,
          issues := if a.gitSsh.isEmpty then [] else [gitSshIssueMsg a.gitSsh],
          warnings :=
            nodeVersionWarnings nodeVersion ++
            (if a.native.isEmpty then [] else [nativeWarningMsg a.native]) ++
            (match hasDevScript with
             | none => [noScriptsWarning]
             | some b => if b then [] else [noDevScriptWarning]),
          suggestions :=
            (if a.native.isEmpty then [] else [nativeSuggestion]) ++
            (if a.gitSsh.isEmpty then [] else [gitSshSuggestion]) ++
            (if 3 ≤ a.peerTrouble.length then [peerSuggestion] else []) ++
            (match hasDevScript with
             | none => [addScriptSuggestion1]
             | some b => if b then [] else [addScriptSuggestion2]),
          nodeVersion := nodeVersion,
          hasNativeDeps := !a.native.isEmpty,
          hasGitSshDeps := !a.gitSsh.isEmpty,
          frameworkDetected := detectFramework pkg a.allDeps }

/-- Result record of `getDevServerConfig` / argv-env pairs. -/
structure DevServerConfig where
  args : List String
  env : Option (List (String × String)) := none
deriving DecidableEq, Repr

/-- `getDevServerConfig`: the pre-flight framework table, a switch over the
detected framework name (an `undefined` framework hits the default case). -/
def getDevServerConfig (framework : Option String) : DevServerConfig :=
  if framework = some "Vite" then
    { args := ["run", "dev", "--", "--host", "0.0.0.0"] }
  else if framework = some "Create React App" then
    { args := ["run", "start"],
      env := some [("HOST", "0.0.0.0"), ("PORT", "3000"), ("BROWSER", "none")] }
  else if framework = some "Next.js" then
    { args := ["run", "dev", "--", "-H", "0.0.0.0"],
      env := some [("NEXT_TELEMETRY_DISABLED", "1")] }
  else if framework = some "Vue CLI" then
    { args := ["run", "serve", "--", "--host", "0.0.0.0"] }
  else if framework = some "Angular CLI" then
    { args := ["run", "start", "--", "--host", "0.0.0.0"] }
  else if framework = some "Nuxt" then
    { args := ["run", "dev", "--", "--host", "0.0.0.0"],
      env := some [("NUXT_TELEMETRY_DISABLED", "1")] }
  else if framework = some "SvelteKit" then
    { args := ["run", "dev", "--", "--host", "0.0.0.0"] }
  else if framework = some "Remix" then
    { args := ["run", "dev"] }
  else if framework = some "Astro" then
    { args := ["run", "dev", "--", "--host", "0.0.0.0"] }
  else if framework = some "Gatsby" then
    { args := ["run", "develop", "--", "-H", "0.0.0.0"],
      env := some [("GATSBY_TELEMETRY_DISABLED", "1")] }
  else
    { args := ["run", "dev"] }

/-! Embedding of `webcontainer.ts` -/

/-- `ContainerStatus`. -/
inductive ContainerStatus where
  | idle | booting | mounting | installing | running | ready | error
deriving DecidableEq, Repr

/-- One observable callback invocation of the orchestrator (`onOutput`,
`onServerReady`, `onStatusChange`, `onError`). -/
inductive Emission where
  | out (data : String)
  | serverReady (url : String)
  | statusChange (st : ContainerStatus)
  | errorMsg (msg : String)
deriving DecidableEq, Repr

/-- The loopback test of `handleServerReady` in `startDevServer`. -/
def loopbackUrl (url : String) : Bool :=
  strStartsWith url "http://localhost" || strStartsWith url "http://127.0.0.1"

/-- Banner printed when the dev-server latch fires (the `port ? ... : ""`
template uses JS truthiness, so port `0` prints nothing). -/
def readyBanner (port : Option Nat) : String :=
  "\n\x1b[32m✓ Server ready" ++
    (match port with
     | some p => if p ≠ 0 then " on port " ++ toString p else ""
     | none => "") ++ "\x1b[0m\n"

/-- `handleServerReady` of `startDevServer`: first-wins latch with loopback
rejection.  Returns the new `serverReadyFired` flag and the emissions. -/
def handleServerReady (fired : Bool) (url : String) (port : Option Nat) :
    Bool × List Emission :=
  if fired then (true, [])
  else if loopbackUrl url then
    (false,
     [Emission.out ("\n\x1b[33m⚠ Detected localhost URL (" ++ url ++
        ") - waiting for external URL...\x1b[0m\n")])
  else
    (true,
     [Emission.out (readyBanner port), Emission.serverReady url,
      Emission.statusChange ContainerStatus.ready])

/-- Signals a `startDevServer` run can observe after the dev-server spawn:
`server-ready` events, output chunks (whose pattern matches only arm advisory
timers), and the advisory 2s grace / 45s overall timers firing. -/
inductive DevSignal where
  | serverReadyEvent (port : Nat) (url : String)
  | outputChunk (data : String)
  | graceTimer
  | overallTimer
deriving DecidableEq, Repr

/-- One signal step of the `startDevServer` readiness detector.  An output
chunk is forwarded and, on a ready-pattern match, only arms the 2-second
advisory timer; the timers print hints when the latch has not fired and never
call the latch. -/
def devStep (fired : Bool) : DevSignal → Bool × List Emission
  | DevSignal.serverReadyEvent port url => handleServerReady fired url (some port)
  | DevSignal.outputChunk data => (fired, [Emission.out data])
  | DevSignal.graceTimer =>
      if fired then (fired, [])
      else
        (fired,
         [Emission.out "\n\x1b[33m⚠ Server appears ready but no external URL detected yet...\x1b[0m\n",
          Emission.out "\x1b[33m  Waiting for WebContainer to expose the port...\x1b[0m\n"])
  | DevSignal.overallTimer =>
      if fired then (fired, [])
      else
        (fired,
         [Emission.out "\n\x1b[33m⚠ Server is taking longer than expected to expose a URL...\x1b[0m\n",
          Emission.out "\x1b[33m  Try these in the terminal:\x1b[0m\n",
          Emission.out "\x1b[33m  • For Vite: npm run dev -- --host 0.0.0.0\x1b[0m\n",
          Emission.out "\x1b[33m  • For CRA: HOST=0.0.0.0 npm start\x1b[0m\n",
          Emission.out "\x1b[33m  • Check the terminal output above for errors.\x1b[0m\n"])

/-- Fold of `devStep` over a whole run, concatenating emissions. -/
def runDevSignals : Bool → List DevSignal → Bool × List Emission
  | fired, [] => (fired, [])
  | fired, sig :: rest =>
      let r1 := devStep fired sig
      let r2 := runDevSignals r1.1 rest
      (r2.1, r1.2 ++ r2.2)

/-- Emissions of the dev-server process `exit` continuation, given the exit
code and the latch flag at that moment. -/
def devServerExitEmissions (code : Int) (serverReadyFired : Bool) :
    List Emission :=
  if code != 0 && !serverReadyFired then
    [Emission.errorMsg ("Dev server exited with code " ++ toString code ++
       ". Check terminal for details."),
     Emission.statusChange ContainerStatus.error]
  else []

/-- Banner of the static-site latch. -/
def staticReadyBanner (port : Option Nat) : String :=
  "\n\x1b[32m✓ Static server ready" ++
    (match port with
     | some p => if p ≠ 0 then " on port " ++ toString p else ""
     | none => "") ++ "\x1b[0m\n"

/-- `handleServerReady` of `serveStaticSite`: first-wins latch with NO
loopback rejection. -/
def handleServerReadyStatic (fired : Bool) (url : String) (port : Option Nat) :
    Bool × List Emission :=
  if fired then (true, [])
  else
    (true,
     [Emission.out (staticReadyBanner port), Emission.serverReady url,
      Emission.statusChange ContainerStatus.ready])

/-- Signals a `serveStaticSite` run can observe: `server-ready` events, output
chunks, and the 500 ms fallback timer armed when a chunk matches
`/available on|listening/i` (its callback latches with the synthesized
loopback URL `http://localhost:3000`). -/
inductive StaticSignal where
  | serverReadyEvent (port : Nat) (url : String)
  | outputChunk (data : String)
  | fallbackTimer
deriving DecidableEq, Repr

/-- One signal step of the `serveStaticSite` readiness detector. -/
def staticStep (fired : Bool) : StaticSignal → Bool × List Emission
  | StaticSignal.serverReadyEvent port url =>
      handleServerReadyStatic fired url (some port)
  | StaticSignal.outputChunk data => (fired, [Emission.out data])
  | StaticSignal.fallbackTimer =>
      if fired then (fired, [])
      else handleServerReadyStatic fired "http://localhost:3000" (some 3000)

/-- Fold of `staticStep` over a whole run. -/
def runStaticSignals : Bool → List StaticSignal → Bool × List Emission
  | fired, [] => (fired, [])
  | fired, sig :: rest =>
      let r1 := staticStep fired sig
      let r2 := runStaticSignals r1.1 rest
      (r2.1, r1.2 ++ r2.2)

/-- Emissions of the static-server process `exit` continuation. -/
def staticServerExitEmissions (code : Int) (serverReadyFired : Bool) :
    List Emission :=
  if code != 0 && !serverReadyFired then
    [Emission.errorMsg ("Static server exited with code " ++ toString code ++ "."),
     Emission.statusChange ContainerStatus.error]
  else []

/-- `hasGitSshDependencies` (the orchestrator re-implements the same scan as
the pre-flight checker, over the same three sections and version tests). -/
def hasGitSshDependencies (pkg : Pkg) : Bool :=
  (depSections pkg).any fun e => isGitSshVersion e.2

/-- `hasPeerDepError`: the five `/i` regexes are literal substrings. -/
def hasPeerDepError (output : String) : Bool :=
  strIncludesCI output "ERESOLVE" ||
  strIncludesCI output "peer dep" ||
  strIncludesCI output "could not resolve dependency" ||
  strIncludesCI output "conflicting peer dependency" ||
  strIncludesCI output "unable to resolve dependency tree"

/-- Scan for `pat` occurring after zero or more non-line-terminator
characters (the `.*` of a non-dotall JS regex). -/
def scanBeforeNewline (pat : List Char) : List Char → Bool
  | [] => pat.isEmpty
  | c :: r =>
      pat.isPrefixOf (c :: r) ||
        (!(c = '\n' || c = '\r') && scanBeforeNewline pat r)

/-- Match of `/ENOENT.*binding\.gyp/i` on an already-lowercased character
list: an occurrence of `enoent` followed, without an intervening line break,
by `binding.gyp`. -/
def enoentBindingGypMatch : List Char → Bool
  | [] => false
  | c :: r =>
      (("enoent".data.isPrefixOf (c :: r)) &&
         scanBeforeNewline "binding.gyp".data ((c :: r).drop 6)) ||
        enoentBindingGypMatch r

/-- `hasPostInstallError`: literal substrings plus the one genuine regex. -/
def hasPostInstallError (output : String) : Bool :=
  strIncludesCI output "postinstall" ||
  strIncludesCI output "node-pre-gyp" ||
  strIncludesCI output "node-gyp" ||
  strIncludesCI output "prebuild-install" ||
  enoentBindingGypMatch (strToLower output).data ||
  strIncludesCI output "gyp ERR!"

/-! Install fallback ladder of `startDevServer` -/

/-- One recorded install attempt: the npm argv, its exit code, its output. -/
structure Attempt where
  args : List String
  exit : Int
  out : String
deriving DecidableEq, Repr

/-- Ladder state: attempts so far, `installExitCode`, `installOutput`. -/
structure LadderState where
  atts : List Attempt
  code : Int
  out : String
deriving DecidableEq, Repr

/-- Argv of strategy 1, `npm ci`. -/
def npmCiArgs : List String := ["ci", "--no-audit", "--no-fund"]

/-- Argv of strategy 2, plain `npm install`. -/
def npmInstallArgs : List String := ["install", "--no-audit", "--no-fund"]

/-- Argv of strategy 3, `npm install --legacy-peer-deps`. -/
def npmLegacyArgs : List String :=
  ["install", "--legacy-peer-deps", "--no-audit", "--no-fund"]

/-- Argv of strategy 4, `npm install --force`. -/
def npmForceArgs : List String :=
  ["install", "--force", "--no-audit", "--no-fund"]

/-- Argv of strategy 5, `npm install --ignore-scripts --legacy-peer-deps`. -/
def npmIgnoreScriptsArgs : List String :=
  ["install", "--ignore-scripts", "--legacy-peer-deps", "--no-audit", "--no-fund"]

/-- One ladder strategy: when its guard (a function of the current
`installExitCode` and `installOutput`) holds, run the command through the
deterministic environment `exec` and record it; `capture` tells whether the
source resets and re-captures `installOutput` for this strategy (true for
strategies 1-4; strategy 5 prints without capturing). -/
def rung (exec : List String → Int × String) (cond : Int → String → Bool)
    (args : List String) (capture : Bool) (s : LadderState) : LadderState :=
  if cond s.code s.out then
    { atts := s.atts ++ [⟨args, (exec args).1, (exec args).2⟩],
      code := (exec args).1,
      out := if capture then (exec args).2 else s.out }
  else s

/-- The five-strategy install ladder of `startDevServer` (lines 366-432):
`npm ci` guarded by the lockfile, then plain install on non-zero exit, then
legacy-peer-deps on non-zero exit plus peer-conflict output, then `--force` on
non-zero exit, then `--ignore-scripts --legacy-peer-deps` on non-zero exit
plus post-install-failure output.  `installExitCode` starts at `-1`. -/
def installLadder (hasPackageLock : Bool)
    (exec : List String → Int × String) : LadderState :=
  let s0 : LadderState := ⟨[], -1, ""⟩
  let s1 := rung exec (fun _ _ => hasPackageLock) npmCiArgs true s0
  let s2 := rung exec (fun c _ => c != 0) npmInstallArgs true s1
  let s3 := rung exec (fun c o => c != 0 && hasPeerDepError o) npmLegacyArgs true s2
  let s4 := rung exec (fun c _ => c != 0) npmForceArgs true s3
  rung exec (fun c o => c != 0 && hasPostInstallError o) npmIgnoreScriptsArgs false s4

/-! Dev-script selection and framework configuration -/

/-- The non-blank-script test of `findDevScript` (`typeof value === "string"
&& value.trim().length > 0`). -/
def nonBlankScript (scripts : List (String × String)) (name : String) : Bool :=
  match scripts.lookup name with
  | some v => strTrim v != ""
  | none => false

/-- Script names probed by `findDevScript`, in priority order. -/
def findDevScriptNames : List String := ["dev", "start", "serve", "develop", "watch"]

/-- `findDevScript`: `null` manifest gives `null`; otherwise the first name of
`findDevScriptNames` bound to a non-blank script. -/
def findDevScript (pkg : Option Pkg) : Option String :=
  match pkg with
  | none => none
  | some p => findDevScriptNames.find? (nonBlankScript (p.scripts.getD []))

/-- `FrameworkConfig` of `detectFrameworkConfig`. -/
structure FrameworkConfig where
  name : Option String := none
  args : List String
  env : Option (List (String × String)) := none
deriving DecidableEq, Repr

/-- Lookup in `{...pkg.dependencies, ...pkg.devDependencies}`: the later
spread (devDependencies) wins. -/
def mergedDepLookup (p : Pkg) (n : String) : Option String :=
  match (p.devDependencies.getD []).lookup n with
  | some v => some v
  | none => (p.dependencies.getD []).lookup n

/-- JS truthiness of `deps[n]` in `detectFrameworkConfig`. -/
def depTruthy (p : Pkg) (n : String) : Bool :=
  match mergedDepLookup p n with
  | some v => v != ""
  | none => false

/-- `detectFrameworkConfig`: the orchestrator framework table.  The declared
dev-script name is chosen from `dev, start, serve, develop` (no `watch`) and
becomes `baseArgs`; then a chain of dependency tests in source order. -/
def detectFrameworkConfig (pkg : Option Pkg) : FrameworkConfig :=
  match pkg with
  | none => { args := ["run", "dev"] }
  | some p =>
      let scripts := p.scripts.getD []
      let devScriptName := ["dev", "start", "serve", "develop"].find? (scriptTruthy scripts)
      let baseArgs : List String :=
        match devScriptName with
        | some s => ["run", s]
        | none => ["run", "dev"]
      if depTruthy p "vite" then
        { name := some "Vite", args := baseArgs ++ ["--", "--host", "0.0.0.0"] }
      else if depTruthy p "react-scripts" then
        { name := some "Create React App", args := baseArgs,
          env := some [("HOST", "0.0.0.0"), ("PORT", "3000"), ("BROWSER", "none")] }
      else if depTruthy p "next" then
        { name := some "Next.js", args := baseArgs ++ ["--", "-H", "0.0.0.0"],
          env := some [("NEXT_TELEMETRY_DISABLED", "1")] }
      else if depTruthy p "@vue/cli-service" then
        { name := some "Vue CLI", args := baseArgs ++ ["--", "--host", "0.0.0.0"] }
      else if depTruthy p "@angular/cli" || depTruthy p "@angular-devkit/build-angular" then
        { name := some "Angular CLI", args := baseArgs ++ ["--", "--host", "0.0.0.0"] }
      else if depTruthy p "nuxt" || depTruthy p "nuxt3" then
        { name := some "Nuxt", args := baseArgs ++ ["--", "--host", "0.0.0.0"],
          env := some [("NUXT_TELEMETRY_DISABLED", "1")] }
      else if depTruthy p "@sveltejs/kit" then
        { name := some "SvelteKit", args := baseArgs ++ ["--", "--host", "0.0.0.0"] }
      else if depTruthy p "@remix-run/dev" then
        { name := some "Remix", args := baseArgs }
      else if depTruthy p "astro" then
        { name := some "Astro", args := baseArgs ++ ["--", "--host", "0.0.0.0"] }
      else if depTruthy p "gatsby" then
        { name := some "Gatsby", args := baseArgs ++ ["--", "-H", "0.0.0.0"],
          env := some [("GATSBY_TELEMETRY_DISABLED", "1")] }
      else if depTruthy p "parcel" || depTruthy p "parcel-bundler" then
        { name := some "Parcel", args := baseArgs ++ ["--", "--host", "0.0.0.0"] }
      else if depTruthy p "express" || depTruthy p "fastify" || depTruthy p "koa" || depTruthy p "hapi" then
        { name := some (if depTruthy p "express" then "Express"
            else if depTruthy p "fastify" then "Fastify"
            else if depTruthy p "koa" then "Koa" else "Hapi"),
          args := baseArgs,
          env := some [("PORT", "3000"), ("HOST", "0.0.0.0")] }
      else if depTruthy p "webpack-dev-server" then
        { name := some "Webpack", args := baseArgs,
          env := some [("HOST", "0.0.0.0")] }
      else
        { args := baseArgs }

/-- Outcome of the dev-script phase of `startDevServer` (lines 438-459):
either the terminal error (no process spawned) or a spawn of
`npm serverArgs`; `frameworkConfig.args` is always a (truthy) array, so the
`|| ["run", devScript]` fallback never applies. -/
inductive ScriptPhase where
  | errored (msg : String)
  | spawned (devScript : String) (args : List String)
      (env : Option (List (String × String)))
deriving DecidableEq, Repr

/-- Error message of the no-dev-script terminal error. -/
def noDevScriptError : String :=
  "No dev/start script found in package.json. The project needs a \x27dev\x27, \x27start\x27, or \x27serve\x27 script."

/-- The dev-script phase: locate the script, else error without spawning. -/
def scriptPhase (pkg : Option Pkg) : ScriptPhase :=
  match findDevScript pkg with
  | none => ScriptPhase.errored noDevScriptError
  | some devScript =>
      let frameworkConfig := detectFrameworkConfig pkg
      ScriptPhase.spawned devScript frameworkConfig.args frameworkConfig.env

/-! Teardown -/

/-- The module-level mutable session of `webcontainer.ts`, with each nullable
binding modelled as a liveness flag. -/
structure SessionState where
  webcontainerInstance : Bool
  bootPromise : Bool
  shellProcess : Bool
  shellWriter : Bool
  shellOutputCallback : Bool
deriving DecidableEq, Repr

/-- External effects `teardownWebContainer` can perform. -/
inductive TeardownAction where
  | closeShellWriter
  | containerTeardown
deriving DecidableEq, Repr

/-- `teardownWebContainer`: close the shell writer when live (wrapped in
`try`), null the shell bindings, and only when a container instance is live
call its `teardown()` and clear both it and `bootPromise`. -/
def teardownWebContainer (s : SessionState) : SessionState × List TeardownAction :=
  let acts1 : List TeardownAction :=
    if s.shellWriter then [TeardownAction.closeShellWriter] else []
  let s1 : SessionState :=
    { s with shellWriter := false, shellProcess := false, shellOutputCallback := false }
  if s1.webcontainerInstance then
    ({ s1 with webcontainerInstance := false, bootPromise := false },
     acts1 ++ [TeardownAction.containerTeardown])
  else (s1, acts1)

/-! Auxiliary definitions used by the statements -/

/-- Recognize an `onServerReady` invocation. -/
def isServerReadyEmission : Emission → Bool
  | Emission.serverReady _ => true
  | _ => false

/-- Recognize an `onStatusChange(ready)` invocation. -/
def isReadyStatusEmission : Emission → Bool
  | Emission.statusChange ContainerStatus.ready => true
  | _ => false

/-- Remove a key from a file tree (for comparing against a manifest-less
tree). -/
def removeTreeKey (tree : FileSystemTree) (k : String) : FileSystemTree :=
  tree.filter fun e => e.1 != k

/-- A manifest whose only dependency version-spec contains `ssh://` in the
middle of the string (neither a `ssh://` prefix, a `git+ssh://` prefix, nor a
`git@` occurrence). -/
def pkgMidSsh : Pkg :=
  { dependencies := some [("dep1", "lib ssh://example.com/r.git")] }

/-- A one-file tree whose manifest text stands for a fixed parse result. -/
def treeOneManifest : FileSystemTree := [("package.json", FsNode.file "m")]

/-- Parse function mapping the manifest text `m` to `pkgMidSsh`. -/
def parseMidSsh : String → Option Pkg :=
  fun c => if c = "m" then some pkgMidSsh else none

/-- A manifest pinning `engines.node` to the upper bound `<16` and declaring
a dev script (so no script warning interferes). -/
def pkgLt16 : Pkg :=
  { scripts := some [("dev", "vite")], enginesNode := some "<16" }

/-- Parse function mapping the manifest text `m` to `pkgLt16`. -/
def parseLt16 : String → Option Pkg :=
  fun c => if c = "m" then some pkgLt16 else none

/-- A manifest whose only script is `watch`. -/
def pkgWatchOnly : Pkg := { scripts := some [("watch", "nodemon server.js")] }

/-- A Create React App manifest declaring a `dev` script. -/
def pkgCRA : Pkg :=
  { dependencies := some [("react-scripts", "5.0.0")],
    scripts := some [("dev", "react-scripts start")] }

/-- A deterministic install environment: the plain install fails with a peer
conflict, every other command succeeds silently. -/
def execPeerConflict : List String → Int × String :=
  fun args => if args = npmInstallArgs then (1, "ERESOLVE") else (0, "")

/-! Helper lemmas -/

/-- Removing a key from a tree makes its lookup fail. -/
theorem lookup_removeTreeKey (tree : FileSystemTree) (k : String) :
    (removeTreeKey tree k).lookup k = none := by
  induction tree with
  | nil => rfl
  | cons e rest ih =>
      obtain ⟨k', v⟩ := e
      by_cases h : k' = k
      · simpa [removeTreeKey, List.filter_cons, h] using ih
      · have hne : (k' != k) = true := by simp [h]
        have hke : (k == k') = false := by
          simp [beq_iff_eq]
          exact fun hh => h hh.symm
        simpa [removeTreeKey, List.filter_cons, hne, List.lookup, hke] using ih

/-- A successful association-list lookup certifies membership. -/
theorem mem_of_lookup_eq_some {β : Type} {l : List (String × β)} {k : String}
    {v : β} (h : l.lookup k = some v) : (k, v) ∈ l := by
  induction l with
  | nil => cases h
  | cons e rest ih =>
      obtain ⟨k', v'⟩ := e
      by_cases hk : k = k'
      · subst hk
        simp [List.lookup] at h
        simp [h]
      · have hke : (k == k') = false := by simp [beq_iff_eq, hk]
        simp [List.lookup, hke] at h
        exact List.mem_cons_of_mem _ (ih h)

/-- Claim C7: the dev-server (and static-server) exit continuation reports an
error carrying the exit code and transitions to `error` exactly when the
process exits non-zero before the readiness latch has fired; an exit with
code zero, or any exit after the latch fired, emits nothing. -/
theorem serverExit_error_policy (code : Int) (fired : Bool) :
    (fired = false → code ≠ 0 →
      devServerExitEmissions code fired =
        [Emission.errorMsg ("Dev server exited with code " ++ toString code ++
           ". Check terminal for details."),
         Emission.statusChange ContainerStatus.error]) ∧
    (code = 0 ∨ fired = true → devServerExitEmissions code fired = []) ∧
    (fired = false → code ≠ 0 →
      staticServerExitEmissions code fired =
        [Emission.errorMsg ("Static server exited with code " ++ toString code ++ "."),
         Emission.statusChange ContainerStatus.error]) ∧
    (code = 0 ∨ fired = true → staticServerExitEmissions code fired = []) := by
  refine ⟨?_, ?_, ?_, ?_⟩
  · intro hf hc
    subst hf
    simp [devServerExitEmissions, bne_iff_ne, hc]
  · rintro (hc | hf)
    · subst hc; simp [devServerExitEmissions]
    · subst hf; simp [devServerExitEmissions]
  · intro hf hc
    subst hf
    simp [staticServerExitEmissions, bne_iff_ne, hc]
  · rintro (hc | hf)
    · subst hc; simp [staticServerExitEmissions]
    · subst hf; simp [staticServerExitEmissions]

/-- Claim C7 witness: a non-zero pre-latch exit of the dev server reports the
error, a zero exit reports nothing. -/
theorem serverExit_error_policy_witness :
    devServerExitEmissions 1 false =
      [Emission.errorMsg "Dev server exited with code 1. Check terminal for details.",
       Emission.statusChange ContainerStatus.error] ∧
    devServerExitEmissions 0 true = [] := by
  constructor
  · exact (serverExit_error_policy 1 false).1 rfl (by decide)
  · exact (serverExit_error_policy 0 true).2.1 (Or.inl rfl)

/-- Claim C9 counterexample: when a boot promise is live but no container
instance is (a teardown issued while boot is still in flight), even two
successive teardown calls leave `bootPromise` set — the state is NOT fully
reset, because `bootPromise` is only cleared inside the
`if (webcontainerInstance)` branch. -/
theorem teardown_bootPromise_counterexample :
    (teardownWebContainer
        (teardownWebContainer ⟨false, true, false, false, false⟩).1).1.bootPromise
      = true := by decide

/-- Claim C9 (amended): teardown is idempotent — the second call changes
nothing and performs no external action — and any single call clears the
shell process, shell writer, and shell output callback, clears the container
instance, and clears the boot promise exactly when a container instance was
live (with no live instance, `bootPromise` is left as it was). -/
theorem teardownWebContainer_idempotent (s : SessionState) :
    teardownWebContainer (teardownWebContainer s).1 =
      ((teardownWebContainer s).1, []) ∧
    (teardownWebContainer s).1.webcontainerInstance = false ∧
    (teardownWebContainer s).1.shellProcess = false ∧
    (teardownWebContainer s).1.shellWriter = false ∧
    (teardownWebContainer s).1.shellOutputCallback = false ∧
    (s.webcontainerInstance = true → (teardownWebContainer s).1.bootPromise = false) ∧
    (s.webcontainerInstance = false → (teardownWebContainer s).1.bootPromise = s.bootPromise) := by
  obtain ⟨w, bp, sp, sw, so⟩ := s
  cases w <;> cases sw <;> simp [teardownWebContainer]

/-- Claim C9 witness: from a fully live session, one teardown clears the
boot promise. -/
theorem teardownWebContainer_idempotent_witness :
    (teardownWebContainer ⟨true, true, true, true, true⟩).1.bootPromise = false :=
  (teardownWebContainer_idempotent ⟨true, true, true, true, true⟩).2.2.2.2.2.1 rfl

/-- Claim C8: `checkCompatibility` is a total function of its inputs (it is a
Lean `def`; the lone fallible step, `JSON.parse`, is caught and mapped to
`none`), and a tree whose manifest text fails to parse produces exactly the
report of the same tree with no `package.json` entry at all; for project type
`nodejs` that report is the optimistic default with the single
missing-manifest warning and `canRun = true`. -/
theorem checkCompatibility_malformed_manifest
    (parse : String → Option Pkg) (tree : FileSystemTree) (pt : ProjectType)
    (c : String)
    (hfile : tree.lookup "package.json" = some (FsNode.file c))
    (hfail : parse c = none) :
    checkCompatibility parse tree pt =
      checkCompatibility parse (removeTreeKey tree "package.json") pt ∧
    (pt = ProjectType.nodejs →
      checkCompatibility parse tree pt =
        { canRun := true, issues := [], warnings := [noPkgWarning],
          suggestions := [], hasNativeDeps := false, hasGitSshDeps := false }) := by
  have h1 : extractPackageJson parse tree = none := by
    simp [extractPackageJson, hfile, hfail]
  have h2 : extractPackageJson parse (removeTreeKey tree "package.json") = none := by
    simp [extractPackageJson, lookup_removeTreeKey]
  constructor
  · by_cases hpt : pt = ProjectType.nodejs
    · subst hpt
      simp [checkCompatibility, h1, h2]
    · simp [checkCompatibility, hpt]
  · intro hpt
    subst hpt
    simp [checkCompatibility, h1]

/-- Claim C8 witness: a tree whose manifest is the unparsable text `oops!`
gets the same report as the tree without a manifest, namely the single
warning with optimistic defaults. -/
theorem checkCompatibility_malformed_manifest_witness :
    checkCompatibility (fun _ => none) [("package.json", FsNode.file "oops!")]
        ProjectType.nodejs =
      { canRun := true, issues := [], warnings := [noPkgWarning],
        suggestions := [], hasNativeDeps := false, hasGitSshDeps := false } :=
  (checkCompatibility_malformed_manifest (fun _ => none)
      [("package.json", FsNode.file "oops!")] ProjectType.nodejs "oops!"
      rfl rfl).2 rfl

/-- Claim C1 counterexample: a dependency whose version-spec merely contains
`ssh://` in mid-string (without a `git+ssh://` or `ssh://` prefix and without
`git@`) is NOT flagged: the report keeps `hasGitSshDeps = false`,
`canRun = true` and an empty issue list, because the source tests
`version.startsWith("ssh://")`, not containment. -/
theorem gitSsh_substring_counterexample :
    strIncludes "lib ssh://example.com/r.git" "ssh://" = true ∧
    strIncludes "lib ssh://example.com/r.git" "git@" = false ∧
    strStartsWith "lib ssh://example.com/r.git" "git+ssh://" = false ∧
    (checkCompatibility parseMidSsh treeOneManifest ProjectType.nodejs).hasGitSshDeps = false ∧
    (checkCompatibility parseMidSsh treeOneManifest ProjectType.nodejs).canRun = true ∧
    (checkCompatibility parseMidSsh treeOneManifest ProjectType.nodejs).issues = [] := by
  decide

/-- Claim C1 (amended): for every tree whose manifest declares, in any of the
three dependency sections, a package whose version string starts with
`git+ssh://`, starts with `ssh://`, or contains `git@`, the nodejs report has
`hasGitSshDeps = true`, `canRun = false`, a non-empty issue list that names
all offending packages, and the replacement suggestion. -/
theorem checkCompatibility_gitSsh_blocks
    (parse : String → Option Pkg) (tree : FileSystemTree) (pkg : Pkg)
    (hpkg : extractPackageJson parse tree = some pkg)
    (n v : String) (hmem : (n, v) ∈ depSections pkg)
    (hflag : isGitSshVersion v = true) :
    (checkCompatibility parse tree ProjectType.nodejs).hasGitSshDeps = true ∧
    (checkCompatibility parse tree ProjectType.nodejs).canRun = false ∧
    (checkCompatibility parse tree ProjectType.nodejs).issues =
      [gitSshIssueMsg (analyzeDependencies pkg).gitSsh] ∧
    (checkCompatibility parse tree ProjectType.nodejs).issues ≠ [] ∧
    (∀ m, m ∈ (analyzeDependencies pkg).gitSsh ↔
      ∃ w, (m, w) ∈ depSections pkg ∧ isGitSshVersion w = true) ∧
    gitSshSuggestion ∈ (checkCompatibility parse tree ProjectType.nodejs).suggestions := by
  have hmemG : n ∈ (analyzeDependencies pkg).gitSsh :=
    List.mem_map.mpr ⟨(n, v), List.mem_filter.mpr ⟨hmem, hflag⟩, rfl⟩
  have hne : (analyzeDependencies pkg).gitSsh ≠ [] := by
    intro h
    rw [h] at hmemG
    cases hmemG
  have hempty : (analyzeDependencies pkg).gitSsh.isEmpty = false := by
    cases hgs : (analyzeDependencies pkg).gitSsh with
    | nil => exact absurd hgs hne
    | cons a l => rfl
  refine ⟨?_, ?_, ?_, ?_, ?_, ?_⟩
  · simp [checkCompatibility, hpkg, hempty]
  · simp [checkCompatibility, hpkg, hempty]
  · simp [checkCompatibility, hpkg, hempty]
  · simp [checkCompatibility, hpkg, hempty]
  · intro m
    constructor
    · intro hm
      obtain ⟨x, hx, hxm⟩ := List.mem_map.mp hm
      obtain ⟨hx1, hx2⟩ := List.mem_filter.mp hx
      refine ⟨x.2, ?_, hx2⟩
      rw [← hxm]
      simpa using hx1
    · rintro ⟨w, hw, hfw⟩
      exact List.mem_map.mpr ⟨(m, w), List.mem_filter.mpr ⟨hw, hfw⟩, rfl⟩
  · simp [checkCompatibility, hpkg, hempty]

/-- Claim C1 witness: a manifest declaring `dep1` at `git+ssh://...` is
blocked, with the issue naming the package. -/
theorem checkCompatibility_gitSsh_blocks_witness :
    (checkCompatibility
        (fun _ => some { dependencies := some [("dep1", "git+ssh://git@github.com/a/b.git")] })
        treeOneManifest ProjectType.nodejs).canRun = false :=
  (checkCompatibility_gitSsh_blocks
      (fun _ => some { dependencies := some [("dep1", "git+ssh://git@github.com/a/b.git")] })
      treeOneManifest
      { dependencies := some [("dep1", "git+ssh://git@github.com/a/b.git")] }
      rfl "dep1" "git+ssh://git@github.com/a/b.git" (by decide) (by decide)).2.1

/-- Claim C5 counterexample: a manifest declaring only a `watch` script has
none of the four claimed names `dev, start, serve, develop`, yet the
orchestrator does NOT error out: `findDevScript` also accepts `watch`, so a
dev-server process is spawned (with the orchestrator framework table's
default argv). -/
theorem findDevScript_watch_counterexample :
    (["dev", "start", "serve", "develop"].all
        fun s => !nonBlankScript (pkgWatchOnly.scripts.getD []) s) = true ∧
    findDevScript (some pkgWatchOnly) = some "watch" ∧
    scriptPhase (some pkgWatchOnly) =
      ScriptPhase.spawned "watch" ["run", "dev"] none := by decide

/-- Claim C5 (amended): the dev script is chosen by probing the names
`dev, start, serve, develop, watch` in that fixed priority order for a
non-blank declared script; when none of the five is declared non-blank the
orchestrator emits the terminal no-dev-script error and spawns nothing, and
otherwise it spawns using the found name. -/
theorem findDevScript_priority (p : Pkg) :
    (findDevScript (some p) = none ↔
      ∀ nm ∈ findDevScriptNames, ¬(nonBlankScript (p.scripts.getD []) nm = true)) ∧
    (∀ s, findDevScript (some p) = some s →
      s ∈ findDevScriptNames ∧ nonBlankScript (p.scripts.getD []) s = true) ∧
    (nonBlankScript (p.scripts.getD []) "dev" = true →
      findDevScript (some p) = some "dev") ∧
    (nonBlankScript (p.scripts.getD []) "dev" = false →
      nonBlankScript (p.scripts.getD []) "start" = true →
      findDevScript (some p) = some "start") ∧
    (nonBlankScript (p.scripts.getD []) "dev" = false →
      nonBlankScript (p.scripts.getD []) "start" = false →
      nonBlankScript (p.scripts.getD []) "serve" = true →
      findDevScript (some p) = some "serve") ∧
    (nonBlankScript (p.scripts.getD []) "dev" = false →
      nonBlankScript (p.scripts.getD []) "start" = false →
      nonBlankScript (p.scripts.getD []) "serve" = false →
      nonBlankScript (p.scripts.getD []) "develop" = true →
      findDevScript (some p) = some "develop") ∧
    (nonBlankScript (p.scripts.getD []) "dev" = false →
      nonBlankScript (p.scripts.getD []) "start" = false →
      nonBlankScript (p.scripts.getD []) "serve" = false →
      nonBlankScript (p.scripts.getD []) "develop" = false →
      nonBlankScript (p.scripts.getD []) "watch" = true →
      findDevScript (some p) = some "watch") ∧
    (findDevScript (some p) = none →
      scriptPhase (some p) = ScriptPhase.errored noDevScriptError) ∧
    (∀ s, findDevScript (some p) = some s →
      scriptPhase (some p) =
        ScriptPhase.spawned s (detectFrameworkConfig (some p)).args
          (detectFrameworkConfig (some p)).env) := by
  refine ⟨?_, ?_, ?_, ?_, ?_, ?_, ?_, ?_, ?_⟩
  · constructor
    · intro h nm hnm
      have := List.find?_eq_none.mp h nm hnm
      simpa using this
    · intro h
      exact List.find?_eq_none.mpr fun nm hnm => by simpa using h nm hnm
  · intro s hs
    exact ⟨List.mem_of_find?_eq_some hs, List.find?_some hs⟩
  · intro h
    show findDevScriptNames.find? (nonBlankScript (p.scripts.getD [])) = some "dev"
    rw [findDevScriptNames]
    exact List.find?_cons_of_pos _ h
  · intro h1 h2
    show findDevScriptNames.find? (nonBlankScript (p.scripts.getD [])) = some "start"
    rw [findDevScriptNames, List.find?_cons_of_neg _ (by simp [h1]),
      List.find?_cons_of_pos _ h2]
  · intro h1 h2 h3
    show findDevScriptNames.find? (nonBlankScript (p.scripts.getD [])) = some "serve"
    rw [findDevScriptNames, List.find?_cons_of_neg _ (by simp [h1]),
      List.find?_cons_of_neg _ (by simp [h2]), List.find?_cons_of_pos _ h3]
  · intro h1 h2 h3 h4
    show findDevScriptNames.find? (nonBlankScript (p.scripts.getD [])) = some "develop"
    rw [findDevScriptNames, List.find?_cons_of_neg _ (by simp [h1]),
      List.find?_cons_of_neg _ (by simp [h2]),
      List.find?_cons_of_neg _ (by simp [h3]), List.find?_cons_of_pos _ h4]
  · intro h1 h2 h3 h4 h5
    show findDevScriptNames.find? (nonBlankScript (p.scripts.getD [])) = some "watch"
    rw [findDevScriptNames, List.find?_cons_of_neg _ (by simp [h1]),
      List.find?_cons_of_neg _ (by simp [h2]),
      List.find?_cons_of_neg _ (by simp [h3]),
      List.find?_cons_of_neg _ (by simp [h4]), List.find?_cons_of_pos _ h5]
  · intro h
    simp [scriptPhase, h]
  · intro s hs
    simp [scriptPhase, hs]

/-- Claim C5 witness: with both `dev` and `start` declared, `dev` wins; with
no script at all, the terminal error is produced. -/
theorem findDevScript_priority_witness :
    findDevScript (some { scripts := some [("start", "node s"), ("dev", "vite")] })
        = some "dev" ∧
    scriptPhase (some ({} : Pkg)) = ScriptPhase.errored noDevScriptError := by
  constructor
  · exact (findDevScript_priority
      { scripts := some [("start", "node s"), ("dev", "vite")] }).2.2.1 (by decide)
  · exact (findDevScript_priority {}).2.2.2.2.2.2.2.1 (by decide)

/-- Claim C6 counterexample: the upper-bound constraint `<16` is parsed
(recorded as major 15, a mismatch with the runtime major 18), yet the report
carries NO warning at all: `checkCompatibility` destructures only `minMajor`
and `exact` and never consults `maxMajor`. -/
theorem nodeVersion_upperBound_counterexample :
    (parseNodeVersionRequirement "<16").maxMajor = some 15 ∧
    (checkCompatibility parseLt16 treeOneManifest ProjectType.nodejs).nodeVersion
      = some "<16" ∧
    (checkCompatibility parseLt16 treeOneManifest ProjectType.nodejs).warnings = [] ∧
    (checkCompatibility parseLt16 treeOneManifest ProjectType.nodejs).canRun = true := by
  decide

/-- Claim C6 (amended): the Node constraint is parsed with the three patterns
and compared against the fixed runtime major 18; the version check
contributes only warnings — `canRun` and `issues` are exactly what the
dependency scan dictates — and it warns precisely when the parsed lower
bound exceeds 18 or the parsed exact major exceeds 18 or is positive and
below 14; a parsed upper bound alone (`maxMajor`) never produces anything. -/
theorem nodeVersion_check_warnsOnly
    (parse : String → Option Pkg) (tree : FileSystemTree) (pkg : Pkg)
    (hpkg : extractPackageJson parse tree = some pkg) :
    (checkCompatibility parse tree ProjectType.nodejs).canRun =
      (analyzeDependencies pkg).gitSsh.isEmpty ∧
    (checkCompatibility parse tree ProjectType.nodejs).issues =
      (if (analyzeDependencies pkg).gitSsh.isEmpty then []
       else [gitSshIssueMsg (analyzeDependencies pkg).gitSsh]) ∧
    (∀ v : String, (parseNodeVersionRequirement v).minMajor = none →
      (parseNodeVersionRequirement v).exact = none →
      nodeVersionWarnings (some v) = []) ∧
    (∀ v : String, nodeVersionWarnings (some v) ≠ [] ↔
      ((∃ m, (parseNodeVersionRequirement v).minMajor = some m ∧
          webContainerNodeVersion < m) ∨
       (∃ e, (parseNodeVersionRequirement v).exact = some e ∧
          (webContainerNodeVersion < e ∨ (0 < e ∧ e < 14))))) := by
  refine ⟨?_, ?_, ?_, ?_⟩
  · simp [checkCompatibility, hpkg]
  · by_cases hgs : (analyzeDependencies pkg).gitSsh.isEmpty <;>
      simp [checkCompatibility, hpkg, hgs]
  · intro v hmin hexact
    by_cases hv : v = ""
    · simp [nodeVersionWarnings, hv]
    · simp [nodeVersionWarnings, hv, hmin, hexact]
  · intro v
    by_cases hv : v = ""
    · subst hv
      have h0 : parseNodeVersionRequirement "" = {} := by decide
      simp [nodeVersionWarnings, h0]
    · rcases hm : (parseNodeVersionRequirement v).minMajor with _ | m <;>
        rcases he : (parseNodeVersionRequirement v).exact with _ | e <;>
        simp [nodeVersionWarnings, hv, hm, he, webContainerNodeVersion] <;>
        omega

/-- Claim C6 witness: the upper-bound pin `<16` yields no warnings, and the
version field leaves `canRun` to the dependency scan. -/
theorem nodeVersion_check_warnsOnly_witness :
    nodeVersionWarnings (some "<16") = [] ∧
    (checkCompatibility parseLt16 treeOneManifest ProjectType.nodejs).canRun =
      (analyzeDependencies pkgLt16).gitSsh.isEmpty := by
  constructor
  · exact (nodeVersion_check_warnsOnly parseLt16 treeOneManifest pkgLt16
      (by decide)).2.2.1 "<16" (by decide) (by decide)
  · exact (nodeVersion_check_warnsOnly parseLt16 treeOneManifest pkgLt16
      (by decide)).1

/-- Claim C4 counterexample: on the static-site serving path a server-ready
signal carrying `http://localhost:3000` (a URL starting with
`http://localhost`) DOES fire the readiness latch — `serveStaticSite`'s
handler has no loopback rejection. -/
theorem loopback_static_counterexample :
    strStartsWith "http://localhost:3000" "http://localhost" = true ∧
    staticStep false (StaticSignal.serverReadyEvent 3000 "http://localhost:3000") =
      (true,
       [Emission.out (staticReadyBanner (some 3000)),
        Emission.serverReady "http://localhost:3000",
        Emission.statusChange ContainerStatus.ready]) := by decide

/-- Claim C4 (amended): on the dev-server path a server-ready signal whose
URL starts with `http://localhost` or `http://127.0.0.1` never fires the
latch (the flag and the wait continue unchanged, whatever the latch state),
while a subsequent signal carrying a non-loopback URL for the same port does
latch readiness exactly once; the static-site path does not reject loopback
URLs (see the counterexample). -/
theorem loopback_rejected_devPath (url₁ url₂ : String) (port : Nat) (fired : Bool)
    (hloop : loopbackUrl url₁ = true) (hok : loopbackUrl url₂ = false) :
    (devStep fired (DevSignal.serverReadyEvent port url₁)).1 = fired ∧
    (∀ u, Emission.serverReady u ∉ (devStep fired (DevSignal.serverReadyEvent port url₁)).2) ∧
    Emission.statusChange ContainerStatus.ready ∉
      (devStep fired (DevSignal.serverReadyEvent port url₁)).2 ∧
    devStep false (DevSignal.serverReadyEvent port url₂) =
      (true, [Emission.out (readyBanner (some port)), Emission.serverReady url₂,
              Emission.statusChange ContainerStatus.ready]) ∧
    (runDevSignals false
        [DevSignal.serverReadyEvent port url₁, DevSignal.serverReadyEvent port url₂]).1
      = true ∧
    (runDevSignals false
        [DevSignal.serverReadyEvent port url₁, DevSignal.serverReadyEvent port url₂]).2.countP
        isServerReadyEmission = 1 ∧
    Emission.serverReady url₂ ∈
      (runDevSignals false
        [DevSignal.serverReadyEvent port url₁, DevSignal.serverReadyEvent port url₂]).2 := by
  cases fired <;>
    simp [devStep, runDevSignals, handleServerReady, hloop, hok,
      isServerReadyEmission, List.countP_cons, List.countP_nil]

/-- Claim C4 witness: `http://localhost:5173` does not latch, a following
non-loopback URL for the same port does. -/
theorem loopback_rejected_devPath_witness :
    (devStep false (DevSignal.serverReadyEvent 5173 "http://localhost:5173")).1 = false ∧
    Emission.serverReady "https://p5173.webcontainer.example" ∈
      (runDevSignals false
        [DevSignal.serverReadyEvent 5173 "http://localhost:5173",
         DevSignal.serverReadyEvent 5173 "https://p5173.webcontainer.example"]).2 := by
  have h := loopback_rejected_devPath "http://localhost:5173"
    "https://p5173.webcontainer.example" 5173 false (by decide) (by decide)
  exact ⟨h.1, h.2.2.2.2.2.2⟩

/-- After the latch fired, every dev-path signal keeps the flag and emits no
ready notification. -/
theorem devStep_fired_noop (sig : DevSignal) :
    (devStep true sig).1 = true ∧
    (devStep true sig).2.countP isServerReadyEmission = 0 ∧
    (devStep true sig).2.countP isReadyStatusEmission = 0 := by
  cases sig <;>
    simp [devStep, handleServerReady, isServerReadyEmission, isReadyStatusEmission]

/-- A whole latched dev-path run emits no further ready notification. -/
theorem runDevSignals_fired (sigs : List DevSignal) :
    (runDevSignals true sigs).1 = true ∧
    (runDevSignals true sigs).2.countP isServerReadyEmission = 0 ∧
    (runDevSignals true sigs).2.countP isReadyStatusEmission = 0 := by
  induction sigs with
  | nil => simp [runDevSignals]
  | cons sig rest ih =>
      obtain ⟨h1, h2, h3⟩ := devStep_fired_noop sig
      simp only [runDevSignals, h1, List.countP_append]
      exact ⟨ih.1, by rw [h2, ih.2.1], by rw [h3, ih.2.2]⟩

/-- A dev-path step from the unlatched state either stays unlatched with no
ready notification, or latches emitting exactly one of each. -/
theorem devStep_false_cases (sig : DevSignal) :
    ((devStep false sig).1 = false ∧
      (devStep false sig).2.countP isServerReadyEmission = 0 ∧
      (devStep false sig).2.countP isReadyStatusEmission = 0) ∨
    ((devStep false sig).1 = true ∧
      (devStep false sig).2.countP isServerReadyEmission = 1 ∧
      (devStep false sig).2.countP isReadyStatusEmission = 1) := by
  cases sig with
  | serverReadyEvent port url =>
      by_cases hl : loopbackUrl url = true
      · left
        simp [devStep, handleServerReady, hl, isServerReadyEmission,
          isReadyStatusEmission]
      · right
        simp only [Bool.not_eq_true] at hl
        simp [devStep, handleServerReady, hl, isServerReadyEmission,
          isReadyStatusEmission]
  | outputChunk data =>
      left
      simp [devStep, isServerReadyEmission, isReadyStatusEmission]
  | graceTimer =>
      left
      simp [devStep, isServerReadyEmission, isReadyStatusEmission]
  | overallTimer =>
      left
      simp [devStep, isServerReadyEmission, isReadyStatusEmission]

/-- Static-path analogue of `devStep_fired_noop`. -/
theorem staticStep_fired_noop (sig : StaticSignal) :
    (staticStep true sig).1 = true ∧
    (staticStep true sig).2.countP isServerReadyEmission = 0 ∧
    (staticStep true sig).2.countP isReadyStatusEmission = 0 := by
  cases sig <;>
    simp [staticStep, handleServerReadyStatic, isServerReadyEmission,
      isReadyStatusEmission]

/-- Static-path analogue of `runDevSignals_fired`. -/
theorem runStaticSignals_fired (sigs : List StaticSignal) :
    (runStaticSignals true sigs).1 = true ∧
    (runStaticSignals true sigs).2.countP isServerReadyEmission = 0 ∧
    (runStaticSignals true sigs).2.countP isReadyStatusEmission = 0 := by
  induction sigs with
  | nil => simp [runStaticSignals]
  | cons sig rest ih =>
      obtain ⟨h1, h2, h3⟩ := staticStep_fired_noop sig
      simp only [runStaticSignals, h1, List.countP_append]
      exact ⟨ih.1, by rw [h2, ih.2.1], by rw [h3, ih.2.2]⟩

/-- Static-path analogue of `devStep_false_cases`. -/
theorem staticStep_false_cases (sig : StaticSignal) :
    ((staticStep false sig).1 = false ∧
      (staticStep false sig).2.countP isServerReadyEmission = 0 ∧
      (staticStep false sig).2.countP isReadyStatusEmission = 0) ∨
    ((staticStep false sig).1 = true ∧
      (staticStep false sig).2.countP isServerReadyEmission = 1 ∧
      (staticStep false sig).2.countP isReadyStatusEmission = 1) := by
  cases sig with
  | serverReadyEvent port url =>
      right
      simp [staticStep, handleServerReadyStatic, isServerReadyEmission,
        isReadyStatusEmission]
  | outputChunk data =>
      left
      simp [staticStep, isServerReadyEmission, isReadyStatusEmission]
  | fallbackTimer =>
      right
      simp [staticStep, handleServerReadyStatic, isServerReadyEmission,
        isReadyStatusEmission]

/-- Claim C3: in any single run — dev-server path or static path — the ready
notification (`onServerReady` together with the `ready` status transition) is
emitted at most once over every possible sequence and interleaving of
server-ready events, output chunks, and timer callbacks, and once the latch
has fired every further signal is a no-op for it. -/
theorem readiness_latch_at_most_once (sigs : List DevSignal)
    (ssigs : List StaticSignal) :
    (runDevSignals false sigs).2.countP isServerReadyEmission ≤ 1 ∧
    (runDevSignals false sigs).2.countP isReadyStatusEmission ≤ 1 ∧
    (∀ sig, (devStep true sig).1 = true ∧
      (devStep true sig).2.countP isServerReadyEmission = 0 ∧
      (devStep true sig).2.countP isReadyStatusEmission = 0) ∧
    (runStaticSignals false ssigs).2.countP isServerReadyEmission ≤ 1 ∧
    (runStaticSignals false ssigs).2.countP isReadyStatusEmission ≤ 1 := by
  have hdev : ∀ l : List DevSignal,
      (runDevSignals false l).2.countP isServerReadyEmission ≤ 1 ∧
      (runDevSignals false l).2.countP isReadyStatusEmission ≤ 1 := by
    intro l
    induction l with
    | nil => simp [runDevSignals]
    | cons sig rest ih =>
        rcases devStep_false_cases sig with ⟨h1, h2, h3⟩ | ⟨h1, h2, h3⟩
        · simp only [runDevSignals, h1, List.countP_append, h2, h3, Nat.zero_add]
          exact ih
        · obtain ⟨_, hr2, hr3⟩ := runDevSignals_fired rest
          simp only [runDevSignals, h1, List.countP_append, h2, h3, hr2, hr3]
          omega
  have hstatic : ∀ l : List StaticSignal,
      (runStaticSignals false l).2.countP isServerReadyEmission ≤ 1 ∧
      (runStaticSignals false l).2.countP isReadyStatusEmission ≤ 1 := by
    intro l
    induction l with
    | nil => simp [runStaticSignals]
    | cons sig rest ih =>
        rcases staticStep_false_cases sig with ⟨h1, h2, h3⟩ | ⟨h1, h2, h3⟩
        · simp only [runStaticSignals, h1, List.countP_append, h2, h3, Nat.zero_add]
          exact ih
        · obtain ⟨_, hr2, hr3⟩ := runStaticSignals_fired rest
          simp only [runStaticSignals, h1, List.countP_append, h2, h3, hr2, hr3]
          omega
  exact ⟨(hdev sigs).1, (hdev sigs).2, devStep_fired_noop, (hstatic ssigs).1,
    (hstatic ssigs).2⟩

/-- Claim C10 counterexample: on a Create React App manifest declaring a
`dev` script, the pre-flight configurator prescribes `npm run start` (its
table hard-codes canonical script names) while the orchestrator configurator
prescribes `npm run dev` (it reuses the declared script name): the two tables
are not equivalent. -/
theorem frameworkTables_counterexample :
    detectFramework pkgCRA (analyzeDependencies pkgCRA).allDeps
      = some "Create React App" ∧
    (getDevServerConfig
        (detectFramework pkgCRA (analyzeDependencies pkgCRA).allDeps)).args
      = ["run", "start"] ∧
    (detectFrameworkConfig (some pkgCRA)).args = ["run", "dev"] ∧
    (getDevServerConfig
        (detectFramework pkgCRA (analyzeDependencies pkgCRA).allDeps)).args ≠
      (detectFrameworkConfig (some pkgCRA)).args := by decide

/-- Claim C10 (amended): the two framework tables are NOT equivalent in
general (see the counterexample); they do agree — same argv, same env — for
every manifest whose merged dependencies carry a truthy `vite` entry and
whose scripts declare a truthy `dev` entry, where both prescribe
`npm run dev -- --host 0.0.0.0` with no environment overrides. -/
theorem frameworkTables_agree_vite (p : Pkg) (v : String)
    (hv : mergedDepLookup p "vite" = some v) (hv' : v ≠ "")
    (hs : scriptTruthy (p.scripts.getD []) "dev" = true) :
    getDevServerConfig (detectFramework p (analyzeDependencies p).allDeps) =
      { args := ["run", "dev", "--", "--host", "0.0.0.0"], env := none } ∧
    detectFrameworkConfig (some p) =
      { name := some "Vite", args := ["run", "dev", "--", "--host", "0.0.0.0"],
        env := none } ∧
    (getDevServerConfig (detectFramework p (analyzeDependencies p).allDeps)).args =
      (detectFrameworkConfig (some p)).args ∧
    (getDevServerConfig (detectFramework p (analyzeDependencies p).allDeps)).env =
      (detectFrameworkConfig (some p)).env := by
  have hdt : depTruthy p "vite" = true := by
    simp [depTruthy, hv]
    exact hv'
  have hmemVite : ("vite", v) ∈ depSections p := by
    unfold mergedDepLookup at hv
    cases hdl : (p.devDependencies.getD []).lookup "vite" with
    | some w =>
        rw [hdl] at hv
        cases hv
        unfold depSections
        exact List.mem_append_left _ (List.mem_append_right _ (mem_of_lookup_eq_some hdl))
    | none =>
        rw [hdl] at hv
        unfold depSections
        exact List.mem_append_left _
          (List.mem_append_left _ (mem_of_lookup_eq_some hv))
  have hmemAll : "vite" ∈ (analyzeDependencies p).allDeps :=
    List.mem_map.mpr ⟨("vite", v), hmemVite, rfl⟩
  have hcontains : (analyzeDependencies p).allDeps.contains "vite" = true := by
    simpa using hmemAll
  have hframework : detectFramework p (analyzeDependencies p).allDeps = some "Vite" := by
    unfold detectFramework FRAMEWORK_PATTERNS
    rw [List.find?_cons_of_pos _ (by simp [hcontains, hmemAll])]
    rfl
  have hfind : ["dev", "start", "serve", "develop"].find?
      (scriptTruthy (p.scripts.getD [])) = some "dev" :=
    List.find?_cons_of_pos _ hs
  have horch : detectFrameworkConfig (some p) =
      { name := some "Vite", args := ["run", "dev", "--", "--host", "0.0.0.0"],
        env := none } := by
    simp [detectFrameworkConfig, hfind, hdt]
  refine ⟨?_, horch, ?_, ?_⟩ <;> simp [hframework, horch, getDevServerConfig]

/-- Claim C10 witness: a concrete Vite manifest with a `dev` script on which
both tables agree. -/
theorem frameworkTables_agree_vite_witness :
    (getDevServerConfig
        (detectFramework { dependencies := some [("vite", "5.0.0")],
                           scripts := some [("dev", "vite")] }
          (analyzeDependencies { dependencies := some [("vite", "5.0.0")],
                                 scripts := some [("dev", "vite")] }).allDeps)).args =
      (detectFrameworkConfig
        (some { dependencies := some [("vite", "5.0.0")],
                scripts := some [("dev", "vite")] })).args :=
  (frameworkTables_agree_vite
      { dependencies := some [("vite", "5.0.0")], scripts := some [("dev", "vite")] }
      "5.0.0" (by decide) (by decide) (by decide)).2.2.1

/-- Attempts already recorded survive a further rung. -/
theorem rung_atts_mono {exec : List String → Int × String}
    {cond : Int → String → Bool} {args : List String} {cap : Bool}
    {s : LadderState} {a : Attempt} (h : a ∈ s.atts) :
    a ∈ (rung exec cond args cap s).atts := by
  unfold rung
  split
  · exact List.mem_append_left _ h
  · exact h

/-- An attempt recorded after a rung was either there before, or is the
rung's own attempt and the rung's guard held on the incoming state. -/
theorem mem_rung_atts {exec : List String → Int × String}
    {cond : Int → String → Bool} {args : List String} {cap : Bool}
    {s : LadderState} {a : Attempt}
    (h : a ∈ (rung exec cond args cap s).atts) :
    a ∈ s.atts ∨
      (a = ⟨args, (exec args).1, (exec args).2⟩ ∧ cond s.code s.out = true) := by
  unfold rung at h
  split at h
  next hc =>
    rcases List.mem_append.mp h with h' | h'
    · exact Or.inl h'
    · simp only [List.mem_singleton] at h'
      exact Or.inr ⟨h', hc⟩
  next => exact Or.inl h

/-- A rung never disturbs the first recorded attempt. -/
theorem rung_head {exec : List String → Int × String}
    {cond : Int → String → Bool} {args : List String} {cap : Bool}
    {s : LadderState} (h : s.atts ≠ []) :
    (rung exec cond args cap s).atts.head? = s.atts.head? ∧
      (rung exec cond args cap s).atts ≠ [] := by
  unfold rung
  split
  · cases hs : s.atts with
    | nil => exact absurd hs h
    | cons x t => simp [hs]
  · exact ⟨rfl, h⟩

/-- Every list member sits in the front part or is the last element. -/
theorem mem_dropLast_or_getLast {α : Type} {l : List α} {a : α} (h : a ∈ l) :
    a ∈ l.dropLast ∨ l.getLast? = some a := by
  induction l with
  | nil => cases h
  | cons x rest ih =>
      cases rest with
      | nil =>
          simp only [List.mem_singleton] at h
          subst h
          exact Or.inr rfl
      | cons y t =>
          rcases List.mem_cons.mp h with rfl | h'
          · exact Or.inl (List.mem_cons_self _ _)
          · rcases ih h' with h1 | h1
            · exact Or.inl (List.mem_cons_of_mem _ h1)
            · exact Or.inr (by rw [List.getLast?_cons_cons]; exact h1)

/-- The invariant threaded through the ladder: all attempts except the last
exited non-zero, and the last attempt's exit code is the running
`installExitCode`. -/
def ladderInv (s : LadderState) : Prop :=
  (∀ a ∈ s.atts.dropLast, a.exit ≠ 0) ∧
  (∀ a, s.atts.getLast? = some a → a.exit = s.code)

/-- A rung whose guard entails a non-zero running exit code preserves the
ladder invariant. -/
theorem rung_preserves_inv {exec : List String → Int × String}
    {cond : Int → String → Bool} {args : List String} {cap : Bool}
    {s : LadderState} (hcond : ∀ c o, cond c o = true → c ≠ 0)
    (hinv : ladderInv s) : ladderInv (rung exec cond args cap s) := by
  unfold rung
  split
  next hc =>
    have hcode : s.code ≠ 0 := hcond _ _ hc
    constructor
    · intro a ha
      rw [List.dropLast_concat] at ha
      rcases mem_dropLast_or_getLast ha with h1 | h1
      · exact hinv.1 a h1
      · rw [hinv.2 a h1]
        exact hcode
    · intro a ha
      rw [List.getLast?_concat, Option.some.injEq] at ha
      subst ha
      rfl
  next => exact hinv

/-- A rung whose guard fails leaves the state untouched. -/
theorem rung_skip {exec : List String → Int × String}
    {cond : Int → String → Bool} {args : List String} {cap : Bool}
    {s : LadderState} (hc : cond s.code s.out = false) :
    rung exec cond args cap s = s := by
  unfold rung
  simp [hc]

/-- A rung whose guard holds appends its attempt and installs its exit code
and (when capturing) its output. -/
theorem rung_fire {exec : List String → Int × String}
    {cond : Int → String → Bool} {args : List String} {cap : Bool}
    {s : LadderState} (hc : cond s.code s.out = true) :
    rung exec cond args cap s =
      ⟨s.atts ++ [⟨args, (exec args).1, (exec args).2⟩], (exec args).1,
        if cap then (exec args).2 else s.out⟩ := by
  unfold rung
  simp [hc]

/-- The ladder, written as the explicit five-rung composition. -/
theorem ladder_unfold (hasLock : Bool) (exec : List String → Int × String) :
    installLadder hasLock exec =
      rung exec (fun c o => c != 0 && hasPostInstallError o) npmIgnoreScriptsArgs false
        (rung exec (fun c _ => c != 0) npmForceArgs true
          (rung exec (fun c o => c != 0 && hasPeerDepError o) npmLegacyArgs true
            (rung exec (fun c _ => c != 0) npmInstallArgs true
              (rung exec (fun _ _ => hasLock) npmCiArgs true ⟨[], -1, ""⟩)))) := rfl

/-- All attempts before the last exited non-zero. -/
theorem installLadder_dropLast (hasLock : Bool)
    (exec : List String → Int × String) :
    ∀ a ∈ (installLadder hasLock exec).atts.dropLast, a.exit ≠ 0 := by
  have h1 : ladderInv (rung exec (fun _ _ => hasLock) npmCiArgs true ⟨[], -1, ""⟩) := by
    unfold rung
    split
    · refine ⟨by simp, ?_⟩
      intro a ha
      simp only [List.nil_append, List.getLast?_singleton, Option.some.injEq] at ha
      subst ha
      rfl
    · exact ⟨by simp, by simp⟩
  have h2 := @rung_preserves_inv exec (fun c _ => c != 0) npmInstallArgs true _
    (fun c o h => by simpa using h) h1
  have h3 := @rung_preserves_inv exec (fun c o => c != 0 && hasPeerDepError o)
    npmLegacyArgs true _
    (fun c o h => by
      simp only [Bool.and_eq_true, bne_iff_ne] at h
      exact h.1) h2
  have h4 := @rung_preserves_inv exec (fun c _ => c != 0) npmForceArgs true _
    (fun c o h => by simpa using h) h3
  have h5 := @rung_preserves_inv exec (fun c o => c != 0 && hasPostInstallError o)
    npmIgnoreScriptsArgs false _
    (fun c o h => by
      simp only [Bool.and_eq_true, bne_iff_ne] at h
      exact h.1) h4
  rw [ladder_unfold]
  exact h5.1

/-- Without a lockfile, `npm ci` is never attempted. -/
theorem installLadder_no_ci (exec : List String → Int × String) :
    ∀ a ∈ (installLadder false exec).atts, a.args ≠ npmCiArgs := by
  intro a ha
  rw [ladder_unfold] at ha
  rcases mem_rung_atts ha with h4 | ⟨rfl, _⟩
  · rcases mem_rung_atts h4 with h3 | ⟨rfl, _⟩
    · rcases mem_rung_atts h3 with h2 | ⟨rfl, _⟩
      · rcases mem_rung_atts h2 with h1 | ⟨rfl, _⟩
        · have e1 : rung exec (fun _ _ => (false : Bool)) npmCiArgs true
              ⟨[], -1, ""⟩ = ⟨[], -1, ""⟩ := rfl
          rw [e1] at h1
          cases h1
        · exact (by decide : npmInstallArgs ≠ npmCiArgs)
      · exact (by decide : npmLegacyArgs ≠ npmCiArgs)
    · exact (by decide : npmForceArgs ≠ npmCiArgs)
  · exact (by decide : npmIgnoreScriptsArgs ≠ npmCiArgs)

/-- With a lockfile, the very first attempt is `npm ci`. -/
theorem installLadder_ci_first (exec : List String → Int × String) :
    (installLadder true exec).atts.head? =
      some ⟨npmCiArgs, (exec npmCiArgs).1, (exec npmCiArgs).2⟩ := by
  have h1 : (rung exec (fun _ _ => (true : Bool)) npmCiArgs true ⟨[], -1, ""⟩).atts =
      [⟨npmCiArgs, (exec npmCiArgs).1, (exec npmCiArgs).2⟩] := rfl
  have hne1 : (rung exec (fun _ _ => (true : Bool)) npmCiArgs true ⟨[], -1, ""⟩).atts ≠ [] := by
    rw [h1]
    simp
  obtain ⟨hh2, hne2⟩ := @rung_head exec (fun c _ => c != 0) npmInstallArgs true _ hne1
  obtain ⟨hh3, hne3⟩ := @rung_head exec (fun c o => c != 0 && hasPeerDepError o)
    npmLegacyArgs true _ hne2
  obtain ⟨hh4, hne4⟩ := @rung_head exec (fun c _ => c != 0) npmForceArgs true _ hne3
  obtain ⟨hh5, _⟩ := @rung_head exec (fun c o => c != 0 && hasPostInstallError o)
    npmIgnoreScriptsArgs false _ hne4
  rw [ladder_unfold, hh5, hh4, hh3, hh2, h1]
  rfl

/-- The plain install runs whenever there is no lockfile, or `npm ci` exited
non-zero. -/
theorem installLadder_install_runs (hasLock : Bool)
    (exec : List String → Int × String)
    (h : hasLock = true → (exec npmCiArgs).1 ≠ 0) :
    ∃ a ∈ (installLadder hasLock exec).atts, a.args = npmInstallArgs := by
  have hmem : (⟨npmInstallArgs, (exec npmInstallArgs).1, (exec npmInstallArgs).2⟩ : Attempt)
      ∈ (rung exec (fun c _ => c != 0) npmInstallArgs true
          (rung exec (fun _ _ => hasLock) npmCiArgs true ⟨[], -1, ""⟩)).atts := by
    cases hasLock with
    | false =>
        have e1 : rung exec (fun _ _ => (false : Bool)) npmCiArgs true ⟨[], -1, ""⟩ =
            ⟨[], -1, ""⟩ := rfl
        rw [e1, rung_fire (by decide)]
        simp
    | true =>
        have e1 : rung exec (fun _ _ => (true : Bool)) npmCiArgs true ⟨[], -1, ""⟩ =
            ⟨[⟨npmCiArgs, (exec npmCiArgs).1, (exec npmCiArgs).2⟩],
              (exec npmCiArgs).1, (exec npmCiArgs).2⟩ := rfl
        rw [e1, rung_fire (by simpa using h rfl)]
        simp
  rw [ladder_unfold]
  exact ⟨_, rung_atts_mono (rung_atts_mono (rung_atts_mono hmem)), rfl⟩

/-- The legacy-peer-deps strategy runs only after the plain install ran,
exited non-zero, and its freshly captured output (exactly the plain install
run's own text) matched a peer-conflict pattern. -/
theorem installLadder_legacy_guard (hasLock : Bool)
    (exec : List String → Int × String)
    (h : ∃ a ∈ (installLadder hasLock exec).atts, a.args = npmLegacyArgs) :
    (exec npmInstallArgs).1 ≠ 0 ∧
      hasPeerDepError (exec npmInstallArgs).2 = true ∧
      ∃ a ∈ (installLadder hasLock exec).atts, a.args = npmInstallArgs := by
  obtain ⟨a, ha, hargs⟩ := h
  rw [ladder_unfold] at ha
  rcases mem_rung_atts ha with h4 | ⟨rfl, _⟩
  · rcases mem_rung_atts h4 with h3 | ⟨rfl, _⟩
    · rcases mem_rung_atts h3 with h2 | ⟨rfl, hc3⟩
      · rcases mem_rung_atts h2 with h1 | ⟨rfl, _⟩
        · rcases mem_rung_atts h1 with h0 | ⟨rfl, _⟩
          · cases h0
          · exact absurd hargs (by decide : ¬npmCiArgs = npmLegacyArgs)
        · exact absurd hargs (by decide : ¬npmInstallArgs = npmLegacyArgs)
      · cases h2c : ((rung exec (fun _ _ => hasLock) npmCiArgs true ⟨[], -1, ""⟩).code != 0) with
        | false =>
            rw [rung_skip h2c] at hc3
            simp [h2c] at hc3
        | true =>
            rw [rung_fire h2c] at hc3
            simp only [Bool.and_eq_true, bne_iff_ne] at hc3
            refine ⟨hc3.1, hc3.2, ?_⟩
            rw [ladder_unfold]
            refine ⟨⟨npmInstallArgs, (exec npmInstallArgs).1, (exec npmInstallArgs).2⟩,
              rung_atts_mono (rung_atts_mono (rung_atts_mono ?_)), rfl⟩
            rw [rung_fire h2c]
            simp
    · exact absurd hargs (by decide : ¬npmForceArgs = npmLegacyArgs)
  · exact absurd hargs (by decide : ¬npmIgnoreScriptsArgs = npmLegacyArgs)

/-- Exit-code-guarded rung, firing case. -/
theorem rungExit_fire {exec : List String → Int × String} {args : List String}
    {cap : Bool} {s : LadderState} (hc : s.code ≠ 0) :
    rung exec (fun c _ => c != 0) args cap s =
      ⟨s.atts ++ [⟨args, (exec args).1, (exec args).2⟩], (exec args).1,
        if cap then (exec args).2 else s.out⟩ :=
  rung_fire (by simpa using hc)

/-- Exit-code-guarded rung, skipping case. -/
theorem rungExit_skip {exec : List String → Int × String} {args : List String}
    {cap : Bool} {s : LadderState} (hc : s.code = 0) :
    rung exec (fun c _ => c != 0) args cap s = s :=
  rung_skip (by simp [hc])

/-- Peer-pattern-guarded rung, firing case. -/
theorem rungPeer_fire {exec : List String → Int × String} {args : List String}
    {cap : Bool} {s : LadderState} (h1 : s.code ≠ 0)
    (h2 : hasPeerDepError s.out = true) :
    rung exec (fun c o => c != 0 && hasPeerDepError o) args cap s =
      ⟨s.atts ++ [⟨args, (exec args).1, (exec args).2⟩], (exec args).1,
        if cap then (exec args).2 else s.out⟩ :=
  rung_fire (by simp [h2]; exact h1)

/-- Peer-pattern-guarded rung, skipping case. -/
theorem rungPeer_skip {exec : List String → Int × String} {args : List String}
    {cap : Bool} {s : LadderState}
    (h : s.code = 0 ∨ hasPeerDepError s.out = false) :
    rung exec (fun c o => c != 0 && hasPeerDepError o) args cap s = s := by
  rcases h with h | h
  · exact rung_skip (by simp [h])
  · exact rung_skip (by simp [h])

/-- Peer-pattern-guarded rung: if it fired, both guard parts held. -/
theorem rungPeer_guard {c : Int} {o : String}
    (h : ((fun c o => c != 0 && hasPeerDepError o) c o) = true) :
    c ≠ 0 ∧ hasPeerDepError o = true := by
  simpa [Bool.and_eq_true, bne_iff_ne] using h

/-- Post-install-pattern-guarded rung: if it fired, both guard parts held. -/
theorem rungPost_guard {c : Int} {o : String}
    (h : ((fun c o => c != 0 && hasPostInstallError o) c o) = true) :
    c ≠ 0 ∧ hasPostInstallError o = true := by
  simpa [Bool.and_eq_true, bne_iff_ne] using h

/-- Post-install-pattern-guarded rung, skipping case. -/
theorem rungPost_skip {exec : List String → Int × String} {args : List String}
    {cap : Bool} {s : LadderState}
    (h : s.code = 0 ∨ hasPostInstallError s.out = false) :
    rung exec (fun c o => c != 0 && hasPostInstallError o) args cap s = s := by
  rcases h with h | h
  · exact rung_skip (by simp [h])
  · exact rung_skip (by simp [h])

/-- When the plain install ran and failed with no peer-conflict pattern, the
legacy strategy is skipped and the forced install still runs: strategy 4
requires only a non-zero exit. -/
theorem installLadder_force_runs (hasLock : Bool)
    (exec : List String → Int × String)
    (hi : (exec npmInstallArgs).1 ≠ 0)
    (hp : hasPeerDepError (exec npmInstallArgs).2 = false)
    (hfirst : hasLock = false ∨ (exec npmCiArgs).1 ≠ 0) :
    (∀ a ∈ (installLadder hasLock exec).atts, a.args ≠ npmLegacyArgs) ∧
      ∃ a ∈ (installLadder hasLock exec).atts, a.args = npmForceArgs := by
  have hs1code : (rung exec (fun _ _ => hasLock) npmCiArgs true ⟨[], -1, ""⟩).code ≠ 0 := by
    cases hasLock with
    | false => exact (by decide : (-1 : Int) ≠ 0)
    | true =>
        rcases hfirst with hf | hf
        · cases hf
        · exact hf
  have e2 := @rungExit_fire exec npmInstallArgs true _ hs1code
  have e3 : rung exec (fun c o => c != 0 && hasPeerDepError o) npmLegacyArgs true
      (rung exec (fun c _ => c != 0) npmInstallArgs true
        (rung exec (fun _ _ => hasLock) npmCiArgs true ⟨[], -1, ""⟩)) =
      rung exec (fun c _ => c != 0) npmInstallArgs true
        (rung exec (fun _ _ => hasLock) npmCiArgs true ⟨[], -1, ""⟩) := by
    apply rungPeer_skip
    rw [e2]
    right
    exact hp
  have hs3code : (rung exec (fun c o => c != 0 && hasPeerDepError o) npmLegacyArgs true
      (rung exec (fun c _ => c != 0) npmInstallArgs true
        (rung exec (fun _ _ => hasLock) npmCiArgs true ⟨[], -1, ""⟩))).code ≠ 0 := by
    rw [e3, e2]
    exact hi
  have e4 := @rungExit_fire exec npmForceArgs true _ hs3code
  constructor
  · intro a ha
    rw [ladder_unfold] at ha
    rcases mem_rung_atts ha with h4 | ⟨rfl, _⟩
    · rcases mem_rung_atts h4 with h3 | ⟨rfl, _⟩
      · rw [e3] at h3
        rcases mem_rung_atts h3 with h1 | ⟨rfl, _⟩
        · rcases mem_rung_atts h1 with h0 | ⟨rfl, _⟩
          · cases h0
          · exact (by decide : ¬npmCiArgs = npmLegacyArgs)
        · exact (by decide : ¬npmInstallArgs = npmLegacyArgs)
      · exact (by decide : ¬npmForceArgs = npmLegacyArgs)
    · exact (by decide : ¬npmIgnoreScriptsArgs = npmLegacyArgs)
  · rw [ladder_unfold]
    refine ⟨⟨npmForceArgs, (exec npmForceArgs).1, (exec npmForceArgs).2⟩,
      rung_atts_mono ?_, rfl⟩
    rw [e4]
    simp

/-- The ignore-scripts strategy runs only after the forced install ran,
exited non-zero, and its freshly captured output matched a
native-build-failure pattern. -/
theorem installLadder_ignore_guard (hasLock : Bool)
    (exec : List String → Int × String)
    (h : ∃ a ∈ (installLadder hasLock exec).atts, a.args = npmIgnoreScriptsArgs) :
    (exec npmForceArgs).1 ≠ 0 ∧
      hasPostInstallError (exec npmForceArgs).2 = true ∧
      ∃ a ∈ (installLadder hasLock exec).atts, a.args = npmForceArgs := by
  obtain ⟨a, ha, hargs⟩ := h
  rw [ladder_unfold] at ha
  rcases mem_rung_atts ha with h4 | ⟨rfl, hc5⟩
  · rcases mem_rung_atts h4 with h3 | ⟨rfl, _⟩
    · rcases mem_rung_atts h3 with h2 | ⟨rfl, _⟩
      · rcases mem_rung_atts h2 with h1 | ⟨rfl, _⟩
        · rcases mem_rung_atts h1 with h0 | ⟨rfl, _⟩
          · cases h0
          · exact absurd hargs (by decide : ¬npmCiArgs = npmIgnoreScriptsArgs)
        · exact absurd hargs (by decide : ¬npmInstallArgs = npmIgnoreScriptsArgs)
      · exact absurd hargs (by decide : ¬npmLegacyArgs = npmIgnoreScriptsArgs)
    · exact absurd hargs (by decide : ¬npmForceArgs = npmIgnoreScriptsArgs)
  · by_cases h4c : (rung exec (fun c o => c != 0 && hasPeerDepError o) npmLegacyArgs true
        (rung exec (fun c _ => c != 0) npmInstallArgs true
          (rung exec (fun _ _ => hasLock) npmCiArgs true ⟨[], -1, ""⟩))).code = 0
    · have e4 := @rungExit_skip exec npmForceArgs true _ h4c
      rw [e4] at hc5
      exact absurd h4c (rungPost_guard hc5).1
    · have e4 := @rungExit_fire exec npmForceArgs true _ h4c
      rw [e4] at hc5
      have hg := rungPost_guard hc5
      refine ⟨hg.1, hg.2, ?_⟩
      rw [ladder_unfold]
      refine ⟨⟨npmForceArgs, (exec npmForceArgs).1, (exec npmForceArgs).2⟩,
        rung_atts_mono ?_, rfl⟩
      rw [e4]
      simp

/-- When the first attempt of the run exits zero, the ladder records exactly
that one attempt. -/
theorem installLadder_first_success (hasLock : Bool)
    (exec : List String → Int × String)
    (h : (exec (if hasLock then npmCiArgs else npmInstallArgs)).1 = 0) :
    (installLadder hasLock exec).atts =
      [⟨if hasLock then npmCiArgs else npmInstallArgs, 0,
        (exec (if hasLock then npmCiArgs else npmInstallArgs)).2⟩] := by
  cases hasLock with
  | true =>
      have hh : (exec npmCiArgs).1 = 0 := h
      have e1 : rung exec (fun _ _ => (true : Bool)) npmCiArgs true ⟨[], -1, ""⟩ =
          ⟨[⟨npmCiArgs, 0, (exec npmCiArgs).2⟩], 0, (exec npmCiArgs).2⟩ := by
        unfold rung
        simp [hh]
      show (installLadder true exec).atts = [⟨npmCiArgs, 0, (exec npmCiArgs).2⟩]
      rw [ladder_unfold, e1]
      rfl
  | false =>
      have hh : (exec npmInstallArgs).1 = 0 := h
      have e2 : rung exec (fun c _ => c != 0) npmInstallArgs true
          (rung exec (fun _ _ => (false : Bool)) npmCiArgs true ⟨[], -1, ""⟩) =
          ⟨[⟨npmInstallArgs, 0, (exec npmInstallArgs).2⟩], 0, (exec npmInstallArgs).2⟩ := by
        unfold rung
        simp [hh]
      show (installLadder false exec).atts = [⟨npmInstallArgs, 0, (exec npmInstallArgs).2⟩]
      rw [ladder_unfold, e2]
      rfl

/-- Claim C2: the install phase is a strictly ordered fallback ladder — every
attempt but the last exited non-zero; `npm ci` is attempted exactly when a
lockfile exists, and then first; the plain install follows any first-attempt
failure; the legacy-peer-deps retry runs only when the plain install ran,
failed, and its freshly captured output (that run's own text, not earlier
attempts') matched a peer-conflict pattern; the forced install requires only
a non-zero exit (it runs even when no pattern matched, in which case the
legacy rung was skipped); the ignore-scripts retry runs only when the forced
install ran, failed, and its fresh output matched a native-build-failure
pattern; and a run whose first attempt exits zero performs exactly one
attempt — the lockfile-aware command when a lockfile is present, else the
plain command. -/
theorem installLadder_spec (hasLock : Bool) (exec : List String → Int × String) :
    (∀ a ∈ (installLadder hasLock exec).atts.dropLast, a.exit ≠ 0) ∧
    (hasLock = false → ∀ a ∈ (installLadder hasLock exec).atts, a.args ≠ npmCiArgs) ∧
    (hasLock = true → (installLadder hasLock exec).atts.head? =
      some ⟨npmCiArgs, (exec npmCiArgs).1, (exec npmCiArgs).2⟩) ∧
    ((hasLock = true → (exec npmCiArgs).1 ≠ 0) →
      ∃ a ∈ (installLadder hasLock exec).atts, a.args = npmInstallArgs) ∧
    ((∃ a ∈ (installLadder hasLock exec).atts, a.args = npmLegacyArgs) →
      (exec npmInstallArgs).1 ≠ 0 ∧
      hasPeerDepError (exec npmInstallArgs).2 = true ∧
      ∃ a ∈ (installLadder hasLock exec).atts, a.args = npmInstallArgs) ∧
    ((exec npmInstallArgs).1 ≠ 0 → hasPeerDepError (exec npmInstallArgs).2 = false →
      hasLock = false ∨ (exec npmCiArgs).1 ≠ 0 →
      (∀ a ∈ (installLadder hasLock exec).atts, a.args ≠ npmLegacyArgs) ∧
      ∃ a ∈ (installLadder hasLock exec).atts, a.args = npmForceArgs) ∧
    ((∃ a ∈ (installLadder hasLock exec).atts, a.args = npmIgnoreScriptsArgs) →
      (exec npmForceArgs).1 ≠ 0 ∧
      hasPostInstallError (exec npmForceArgs).2 = true ∧
      ∃ a ∈ (installLadder hasLock exec).atts, a.args = npmForceArgs) ∧
    ((exec (if hasLock then npmCiArgs else npmInstallArgs)).1 = 0 →
      (installLadder hasLock exec).atts =
        [⟨if hasLock then npmCiArgs else npmInstallArgs, 0,
          (exec (if hasLock then npmCiArgs else npmInstallArgs)).2⟩]) := by
  refine ⟨installLadder_dropLast hasLock exec, ?_, ?_,
    installLadder_install_runs hasLock exec,
    installLadder_legacy_guard hasLock exec,
    installLadder_force_runs hasLock exec,
    installLadder_ignore_guard hasLock exec,
    installLadder_first_success hasLock exec⟩
  · intro hf
    subst hf
    exact installLadder_no_ci exec
  · intro ht
    subst ht
    exact installLadder_ci_first exec

/-- Claim C2 witness: with no lockfile and a peer-conflict plain-install
failure, the ladder ran the plain install (whose fresh output matched); with
a lockfile and an immediately succeeding `npm ci`, exactly one attempt is
recorded. -/
theorem installLadder_spec_witness :
    ((execPeerConflict npmInstallArgs).1 ≠ 0 ∧
      hasPeerDepError (execPeerConflict npmInstallArgs).2 = true ∧
      ∃ a ∈ (installLadder false execPeerConflict).atts, a.args = npmInstallArgs) ∧
    (installLadder true (fun _ => (0, "ok"))).atts = [⟨npmCiArgs, 0, "ok"⟩] := by
  constructor
  · exact (installLadder_spec false execPeerConflict).2.2.2.2.1 (by decide)
  · exact (installLadder_spec true (fun _ => (0, "ok"))).2.2.2.2.2.2.2 (by decide)
